import Mathlib

/-!
Verification of the ChaseAnalyzer statement-analysis pipeline.

The Python sources are shallowly embedded as executable Lean definitions:
statement amounts (Python floats holding dollar values) are modelled as exact
rationals, Python strings as Lean `String` manipulated through `List Char`,
Python dicts as insertion-ordered association lists, and Python sets as
duplicate-free lists.  Fallible I/O actions are modelled by `Except` values
supplied as part of the state, with `try`/`except` blocks embedded as total
case splits on those values.
-/

/-- Python's substring test `pat in s` restricted to one line:
`hasInfix s pat` is true when `pat` occurs contiguously inside `s`. -/
def hasInfix : List Char → List Char → Bool
  | s@(_ :: rest), pat => pat.isPrefixOf s || hasInfix rest pat
  | [], pat => pat.isEmpty

/-- Python's `pat in s` on strings. -/
def strContains (s pat : String) : Bool :=
  hasInfix s.toList pat.toList

/-- Python's `str.upper()` (ASCII letters, as used by the sources). -/
def upperS (s : String) : String :=
  String.mk (s.toList.map Char.toUpper)

/-- Python's `str.lower()` (ASCII letters, as used by the sources). -/
def lowerS (s : String) : String :=
  String.mk (s.toList.map Char.toLower)

/-- Python's `str.strip()`: drop leading and trailing whitespace. -/
def pyStrip (s : String) : String :=
  String.mk (((s.toList.dropWhile Char.isWhitespace).reverse.dropWhile
    Char.isWhitespace).reverse)

/-- `EnhancedChaseStatementAnalyzer.detect_statement_format`, inner account
check: a line containing `Account Number:` yields the first of the four
suffixes `5136`, `0801`, `8635`, `1250` that occurs in the line, and `none`
when the line lacks `Account Number:` or contains none of the suffixes
(in which case the Python loop falls through to the next line). -/
def detectAccountLine (line : String) : Option String :=
  if strContains line "Account Number:" then
    if strContains line "5136" then some "5136"
    else if strContains line "0801" then some "0801"
    else if strContains line "8635" then some "8635"
    else if strContains line "1250" then some "1250"
    else none
  else none

/-- `EnhancedChaseStatementAnalyzer.detect_statement_format`
(src/chase_analysis.py): scan the first 50 lines for an account-number
match, otherwise fall back to layout keywords over the uppercased join of
those lines, defaulting to `5136`. -/
def detect_statement_format (lines : List String) : String :=
  let sample_lines := lines.take 50
  match sample_lines.findSome? detectAccountLine with
  | some fmt => fmt
  | none =>
    let sample_text := upperS (String.intercalate "\n" sample_lines)
    if strContains sample_text "PAYMENTS AND OTHER CREDITS" &&
        strContains sample_text "PURCHASE" then "8635"
    else if strContains sample_text "DATE OF TRANSACTION" then "5136"
    else if strContains sample_text "TRANSACTIONS THIS CYCLE" then "0801"
    else "5136"

example : detect_statement_format ["Account Number: XXXX XXXX XXXX 0801"] = "0801" := by decide
example : detect_statement_format ["Date of Transaction"] = "5136" := by decide
example : detect_statement_format [] = "5136" := by decide

/-- One extracted transaction record (the Python dicts built by the
extraction routines).  `original_category` is the key added later by
`apply_master_categorization`; it is absent (`none`) on freshly extracted
records.  Dollar amounts are modelled as exact rationals. -/
structure Txn where
  date : String
  cardholder : String
  merchant : String
  amount : ℚ
  type : String
  category : String
  original_category : Option String := none
  deriving Repr, DecidableEq

/-- The fields of `EnhancedChaseStatementAnalyzer` that the reconciliation
routines read (src/chase_analysis.py).  `pdf_file` is the path of the
statement being processed. -/
structure AnalyzerState where
  pdf_file : String
  transactions : List Txn
  statement_previous_balance : ℚ
  statement_new_balance : ℚ
  statement_purchase_total : ℚ
  statement_payment_total : ℚ
  deriving Repr

/-- The dict returned by `verify_totals`. -/
structure VerifyResult where
  purchase_total_calculated : ℚ
  purchase_total_statement : ℚ
  purchase_match : Bool
  payment_total_calculated : ℚ
  payment_total_statement : ℚ
  payment_match : Bool
  total_transactions : Nat
  purchase_count : Nat
  payment_count : Nat
  fee_count : Nat
  credit_count : Nat
  interest_count : Nat
  purchases_fees_total : ℚ
  purchases_only_total : ℚ
  all_transactions_total : ℚ
  deriving Repr

/-- `EnhancedChaseStatementAnalyzer.verify_totals` (src/chase_analysis.py):
sum the extracted transactions and compare against the appropriate
statement summary figure with a one-cent tolerance. -/
def verify_totals (s : AnalyzerState) : VerifyResult :=
  let calculated_total_all := (s.transactions.map (·.amount)).sum
  let calculated_purchases_only :=
    ((s.transactions.filter (·.type == "Purchase")).map (·.amount)).sum
  let calculated_purchases_fees :=
    ((s.transactions.filter (fun t => t.type == "Purchase" || t.type == "Fee")).map
      (·.amount)).sum
  let pair :=
    if strContains s.pdf_file "8635" then
      (calculated_purchases_only, s.statement_purchase_total)
    else if strContains s.pdf_file "1250" then
      (calculated_total_all, s.statement_new_balance)
    else
      (calculated_total_all, s.statement_new_balance)
  let comparison_total := pair.1
  let statement_comparison := pair.2
  let balance_match := |comparison_total - statement_comparison| < 1/100
  { purchase_total_calculated := comparison_total
    purchase_total_statement := statement_comparison
    purchase_match := decide balance_match
    payment_total_calculated := 0
    payment_total_statement := s.statement_payment_total
    payment_match := true
    total_transactions := s.transactions.length
    purchase_count := (s.transactions.filter (·.type == "Purchase")).length
    payment_count := 0
    fee_count := (s.transactions.filter (·.type == "Fee")).length
    credit_count := (s.transactions.filter (·.type == "Credit")).length
    interest_count := (s.transactions.filter (·.type == "Interest")).length
    purchases_fees_total := calculated_purchases_fees
    purchases_only_total := calculated_purchases_only
    all_transactions_total := calculated_total_all }

/-- `EnhancedChaseStatementAnalyzer.categorize_transaction`
(src/chase_analysis.py): built-in keyword heuristics over the uppercased
merchant name.  The `amount` argument is accepted and ignored, as in the
source. -/
def categorize_transaction (merchant : String) (amount : ℚ) : String :=
  let merchant_upper := upperS merchant
  if ["SHELL", "CHEVRON", "EXXON", "MOBIL", "ARCO", "BP ", "COSTCO GAS",
      "GAS"].any (fun gas => strContains merchant_upper gas) then "GAS/FUEL"
  else if ["SAFEWAY", "QFC", "COSTCO WHSE", "TARGET", "WALMART"].any
      (fun grocery => strContains merchant_upper grocery) then "GROCERY"
  else if ["AMAZON", "AMZN"].any
      (fun amazon => strContains merchant_upper amazon) then "SHOPPING"
  else if ["RESTAURANT", "STARBUCKS", "MCDONALD", "SUBWAY", "PIZZA"].any
      (fun dining => strContains merchant_upper dining) then "RESTAURANT"
  else if ["ELECTRIC", "WATER", "GAS BILL", "COMCAST", "VERIZON"].any
      (fun util => strContains merchant_upper util) then "UTILITIES"
  else if ["UNITED", "DELTA", "AMERICAN AIR", "SOUTHWEST", "HOTEL"].any
      (fun travel => strContains merchant_upper travel) then "TRAVEL/DINING"
  else if ["NETFLIX", "SPOTIFY", "APPLE.COM", "GOOGLE"].any
      (fun sub => strContains merchant_upper sub) then "SUBSCRIPTIONS"
  else "OTHER"

/-- One entry of the `category_stats` dict of `display_category_table`:
a transaction count and an accumulated amount, keyed by category name.
The list keeps Python's dict insertion order. -/
abbrev CategoryStats := List (String × Nat × ℚ)

/-- `category_stats[cat]['count'] += 1; category_stats[cat]['amount'] += a`
with the `if cat not in category_stats` initialisation. -/
def updateStats (stats : CategoryStats) (cat : String) (a : ℚ) : CategoryStats :=
  match stats with
  | [] => [(cat, 1, a)]
  | (c, n, amt) :: rest =>
    if c = cat then (c, n + 1, amt + a) :: rest
    else (c, n, amt) :: updateStats rest cat a

/-- The `category_stats` accumulation loop of `display_category_table`. -/
def buildCategoryStats (txns : List Txn) : CategoryStats :=
  txns.foldl (fun stats t => updateStats stats t.category t.amount) []

/-- Sum of the accumulated amounts of a stats table (the `total_amount`
computed by the display routines). -/
def statsTotal (stats : CategoryStats) : ℚ :=
  (stats.map (fun e => e.2.2)).sum

/-- `category_stats['MISC'] = {'count': 1, 'amount': diff}`: replace the
`MISC` entry in place when present, otherwise append it. -/
def injectMisc (stats : CategoryStats) (diff : ℚ) : CategoryStats :=
  match stats with
  | [] => [("MISC", 1, diff)]
  | (c, n, amt) :: rest =>
    if c = "MISC" then ("MISC", 1, diff) :: rest
    else (c, n, amt) :: injectMisc rest diff

/-- `_display_adjusted_category_table`: pop `MISC`, sort the remaining
entries by amount (highest first), and put `MISC` back at the end; the
adjusted total is the amount sum over the resulting list. -/
def adjustedDisplayList (stats : CategoryStats) : CategoryStats :=
  let misc := stats.filter (fun e => e.1 = "MISC")
  let rest := stats.filter (fun e => e.1 ≠ "MISC")
  (rest.insertionSort (fun a b => b.2.2 ≤ a.2.2)) ++ misc

/-- The reconciliation decision of
`EnhancedChaseStatementAnalyzer.display_category_table`
(src/chase_analysis.py): returns the adjusted stats table (with the
synthetic `MISC` entry injected) when a small mismatch triggers
`_display_adjusted_category_table`, and `none` when the table is left
unadjusted (match, large mismatch, or no transactions). -/
def display_category_table (s : AnalyzerState) : Option CategoryStats :=
  if s.transactions.isEmpty then none
  else
    let category_stats := buildCategoryStats s.transactions
    let total_amount := statsTotal category_stats
    if strContains s.pdf_file "8635" then
      let net_change := s.statement_new_balance - s.statement_previous_balance
      let payment_amount := total_amount - net_change
      let statement_comparison_amount := net_change + payment_amount
      let diff := statement_comparison_amount - total_amount
      if |diff| < 1/100 then none
      else if |diff| ≤ 300 then some (adjustedDisplayList (injectMisc category_stats diff))
      else none
    else if strContains s.pdf_file "1250" then
      let statement_comparison_amount := s.statement_new_balance
      let diff := statement_comparison_amount - total_amount
      if |diff| < 1/100 then none
      else if |diff| ≤ 300 then some (adjustedDisplayList (injectMisc category_stats diff))
      else none
    else
      let statement_comparison_amount := s.statement_new_balance
      let diff := statement_comparison_amount - total_amount
      if |diff| < 1/100 then none
      else if |diff| ≤ 300 then some (adjustedDisplayList (injectMisc category_stats diff))
      else none

/-- The statement figure `display_category_table` compares the category sum
against (`statement_comparison_amount` in the source). -/
def statementComparisonAmount (s : AnalyzerState) : ℚ :=
  if strContains s.pdf_file "8635" then
    let total_amount := statsTotal (buildCategoryStats s.transactions)
    let net_change := s.statement_new_balance - s.statement_previous_balance
    net_change + (total_amount - net_change)
  else s.statement_new_balance

/-- Tail of the amount pattern of the 5136 transaction regex, after the
integer digits and thousands groups: an optional dot followed by at most
two digits, which must consume the rest of the captured group. -/
def amtTail (cs : List Char) : Bool :=
  match cs with
  | [] => true
  | '.' :: ds => ds.length ≤ 2 && ds.all (·.isDigit)
  | ds => ds.length ≤ 2 && ds.all (·.isDigit)

/-- Zero or more `,ddd` thousands groups followed by `amtTail`.  A comma
must open a group because `amtTail` never accepts a leading comma. -/
def amtGroups : List Char → Bool
  | ',' :: a :: b :: c :: rest => a.isDigit && b.isDigit && c.isDigit && amtGroups rest
  | cs => amtTail cs

/-- One to three leading digits followed by `amtGroups` (the unsigned part
of the amount pattern), consuming the whole list. -/
def amtInt (cs : List Char) : Bool :=
  match cs with
  | [] => false
  | d1 :: rest1 =>
    d1.isDigit &&
      (amtGroups rest1 ||
        (match rest1 with
        | [] => false
        | d2 :: rest2 =>
          d2.isDigit &&
            (amtGroups rest2 ||
              (match rest2 with
              | [] => false
              | d3 :: rest3 => d3.isDigit && amtGroups rest3))))

/-- Whole-list membership in the language of the amount group of the 5136
transaction regex, `[-]?\d..3(,\d\d\d)*`, an optional dot and up to two
digits.  Anchored at the line end by the regex, so membership of the whole
remaining suffix is the right notion. -/
def amountLang (cs : List Char) : Bool :=
  match cs with
  | '-' :: rest => amtInt rest
  | _ => amtInt cs

/-- Given the text after a candidate merchant, check that it consists of a
nonempty whitespace run followed by a full amount match, and return the
amount characters.  The amount group cannot start with whitespace, so the
whitespace run is exactly the maximal leading run. -/
def wsAmtSplit (cs : List Char) : Option (List Char) :=
  match cs with
  | [] => none
  | c :: _ =>
    if c.isWhitespace then
      let a := cs.dropWhile (·.isWhitespace)
      if amountLang a then some a else none
    else none

/-- Lazy search for the merchant group: try the shortest nonempty merchant
prefix whose remainder splits as whitespace plus amount, growing the
merchant one character at a time (the `.+?` backtracking order). -/
def findMerchantSplit (acc : List Char) : List Char → Option (List Char × List Char)
  | [] => none
  | c :: rest =>
    match wsAmtSplit rest with
    | some a => some (acc ++ [c], a)
    | none => findMerchantSplit (acc ++ [c]) rest

/-- Full-line match of the 5136 transaction regex
`(\d\d/\d\d)\s+(.+?)\s+([-]?\d..3(,\d\d\d)*` dot `\d..2)$`, returning the
three captured groups (date, merchant, amount).  The `\s+` after the date
is taken maximally: the only matches the regex engine reaches by
backtracking it are ones whose merchant group is entirely whitespace, and
those are discarded by the caller's merchant-length check in either case. -/
def matchTransactionLine (cs : List Char) : Option (List Char × List Char × List Char) :=
  match cs with
  | d1 :: d2 :: '/' :: d3 :: d4 :: rest =>
    if d1.isDigit && d2.isDigit && d3.isDigit && d4.isDigit then
      match rest with
      | [] => none
      | c :: _ =>
        if c.isWhitespace then
          match findMerchantSplit [] (rest.dropWhile (·.isWhitespace)) with
          | some (m, a) => some ([d1, d2, '/', d3, d4], m, a)
          | none => none
        else none
    else none
  | _ => none

/-- Python's `s.replace(',', '')`. -/
def removeCommas (cs : List Char) : List Char :=
  cs.filter (fun c => c ≠ ',')

/-- Digit run to a natural number. -/
def digitsToNat (cs : List Char) : Nat :=
  cs.foldl (fun n c => 10 * n + (c.toNat - 48)) 0

/-- Python's `float(s)` on the decimal strings produced by the amount
group after comma removal: optional sign, integer digits, optionally a dot
and fraction digits.  Returns `none` on anything else (`ValueError`).
Modelled exactly over ℚ. -/
def parseFloatParts? (cs : List Char) : Option (Bool × Nat × Nat × Nat) :=
  let p := match cs with
    | '-' :: r => (true, r)
    | _ => (false, cs)
  let neg := p.1
  let body := p.2
  let ds := body.takeWhile (·.isDigit)
  let rest := body.dropWhile (·.isDigit)
  match rest with
  | [] => if ds.isEmpty then none else some (neg, digitsToNat ds, 0, 0)
  | '.' :: fs =>
    if (!ds.isEmpty || !fs.isEmpty) && fs.all (·.isDigit) then
      some (neg, digitsToNat ds, digitsToNat fs, fs.length)
    else none
  | _ => none

/-- The rational denoted by a sign, integer part, fraction digits and
fraction length. -/
def partsToRat (p : Bool × Nat × Nat × Nat) : ℚ :=
  let m : ℚ := (p.2.1 : ℚ) + (p.2.2.1 : ℚ) / (10 : ℚ) ^ p.2.2.2
  if p.1 then -m else m

def parseFloat? (cs : List Char) : Option ℚ :=
  (parseFloatParts? cs).map partsToRat

example : parseFloatParts? "1234.56".toList = some (false, 1234, 56, 2) := by decide
example : parseFloat? "-5.".toList = some (-5 : ℚ) := by
  have h : parseFloatParts? "-5.".toList = some (true, 5, 0, 0) := by decide
  simp only [parseFloat?, h, Option.map_some']
  norm_num [partsToRat]
example : parseFloat? "1 2".toList = none := by
  have h : parseFloatParts? "1 2".toList = none := by decide
  simp only [parseFloat?, h, Option.map_none']

/-- Helper for `pyWords`: accumulate the current word (reversed). -/
def pyWordsAux : List Char → List Char → List (List Char)
  | [], acc => if acc.isEmpty then [] else [acc.reverse]
  | c :: rest, acc =>
    if c.isWhitespace then
      if acc.isEmpty then pyWordsAux rest [] else acc.reverse :: pyWordsAux rest []
    else pyWordsAux rest (c :: acc)

/-- Python's `str.split()` with no argument: split on whitespace runs,
discarding empty pieces. -/
def pyWords (cs : List Char) : List (List Char) :=
  pyWordsAux cs []

example : pyWords "  a bc  d ".toList = [['a'], ['b', 'c'], ['d']] := by decide

/-- Loop state of the first pass of `extract_5136_format_transactions`. -/
structure Loop5136State where
  all_transactions : List Txn
  credits_to_include : List Txn
  in_fees_section : Bool
  in_credits_section : Bool
  deriving Repr

/-- The header/footer skip substrings of `extract_5136_format_transactions`. -/
def skipPatterns5136 : List String :=
  ["Date of", "Transaction", "Merchant Name", "$ Amount",
   "Account Summary", "Previous Balance", "New Balance",
   "Minimum Payment", "Payment Due", "Interest",
   "ACCOUNT SUMMARY", "PREVIOUS BALANCE", "NEW BALANCE"]

/-- One iteration of the first pass of
`EnhancedChaseStatementAnalyzer.extract_5136_format_transactions`
(src/chase_analysis.py): section tracking, header skipping, regex match,
and classification of the matched line as purchase, fee or credit. -/
def processLine5136 (st : Loop5136State) (rawLine : String) : Loop5136State :=
  let line := pyStrip rawLine
  if line = "" then st
  else
    let lineUp := upperS line
    if strContains lineUp "FEES CHARGED" then { st with in_fees_section := true }
    else if st.in_fees_section &&
        (strContains lineUp "INTEREST CHARGES" ||
          strContains lineUp "TOTAL FEES FOR THIS PERIOD") then
      { st with in_fees_section := false }
    else if strContains lineUp "PAYMENTS AND OTHER CREDITS" then
      { st with in_credits_section := true }
    else if st.in_credits_section &&
        (strContains lineUp "PURCHASE" || strContains lineUp "TOTAL CREDITS" ||
          strContains lineUp "INTEREST CHARGES") then
      { st with in_credits_section := false }
    else if skipPatterns5136.any (fun skip => strContains line skip) ||
        strContains lineUp "TOTAL FEES" then st
    else
      match matchTransactionLine line.toList with
      | none => st
      | some (dateCs, merchantCs, amountCs) =>
        let date_str := String.mk dateCs
        let merchant := pyStrip (String.mk merchantCs)
        let amount_str := removeCommas amountCs
        if merchant.toList.length < 3 ||
            upperS merchant ∈ ["TOTAL", "SUBTOTAL", "BALANCE"] then st
        else
          match parseFloat? amount_str with
          | none => st
          | some amount =>
            if st.in_credits_section then
              if amount < 0 then
                if strContains (lowerS merchant) "payment" ||
                    strContains (lowerS merchant) "thank you" then st
                else
                  { st with credits_to_include := st.credits_to_include ++
                      [{ date := "2025/" ++ date_str, cardholder := "SUMATHI RAJ",
                         merchant := merchant, amount := amount, type := "Credit",
                         category := categorize_transaction merchant |amount| }] }
              else st
            else
              if amount < 0 || strContains (lowerS merchant) "payment" ||
                  strContains (lowerS merchant) "thank you" then st
              else
                let tc := if st.in_fees_section then ("Fee", "CC FEES")
                  else ("Purchase", categorize_transaction merchant amount)
                { st with all_transactions := st.all_transactions ++
                    [{ date := "2025/" ++ date_str, cardholder := "SUMATHI RAJ",
                       merchant := merchant, amount := amount, type := tc.1,
                       category := tc.2 }] }

/-- `merchant.upper().split()[0] if merchant else ''`.  A nonempty but
all-whitespace string would raise `IndexError` in the source; it is
modelled as `""` here, and the extraction pipeline only reaches this with
stripped merchants of length at least three. -/
def firstWordUpper (s : String) : String :=
  if s = "" then ""
  else match pyWords (upperS s).toList with
    | [] => ""
    | w :: _ => String.mk w

/-- The offsetting-purchase scan of the second pass: some already collected
transaction is a purchase of the credit's absolute amount whose merchant
contains the credit merchant's first word.  (The `txn_base` variable of
the source is computed but never used.) -/
def hasOffsettingPurchase (allTxns : List Txn) (credit : Txn) : Bool :=
  allTxns.any (fun txn =>
    txn.type == "Purchase" && txn.amount == |credit.amount| &&
      (let credit_base := firstWordUpper credit.merchant
      !(credit_base = "") && strContains (upperS txn.merchant) credit_base))

/-- Second pass of `extract_5136_format_transactions`: append each stored
credit unless it has an offsetting purchase among the transactions
collected so far. -/
def includeCredits (allTxns credits : List Txn) : List Txn :=
  credits.foldl
    (fun acc credit =>
      if hasOffsettingPurchase acc credit then acc else acc ++ [credit])
    allTxns

/-- `EnhancedChaseStatementAnalyzer.extract_5136_format_transactions`
(src/chase_analysis.py). -/
def extract_5136_format_transactions (lines : List String) : List Txn :=
  let st := lines.foldl processLine5136
    { all_transactions := [], credits_to_include := [],
      in_fees_section := false, in_credits_section := false }
  includeCredits st.all_transactions st.credits_to_include

/-- Removal of a trailing segment matched by a regex of the shape
`\s+P.*$` (or `\s+P$`): cut the string at the leftmost whitespace
character whose maximal whitespace run is followed by text satisfying
`startsP`.  The `\s+` cannot end before the run does, because none of the
continuations `P` used below begins with whitespace. -/
def remTailSub (startsP : List Char → Bool) : List Char → List Char
  | [] => []
  | c :: rest =>
    if c.isWhitespace && startsP (rest.dropWhile Char.isWhitespace) then []
    else c :: remTailSub startsP rest

/-- Continuation of `\s+\d+.*$`: a digit follows. -/
def startsDigitRun (cs : List Char) : Bool :=
  match cs with
  | d :: _ => d.isDigit
  | [] => false

/-- Continuation of `\s+(LLC|INC|CORP|CO).*$`: one of the suffix words
follows (no word boundary in the source pattern). -/
def startsCompanySuffix (cs : List Char) : Bool :=
  ["LLC", "INC", "CORP", "CO"].any (fun w => w.toList.isPrefixOf cs)

/-- Continuation of `\s+#\d+.*$`: a hash sign and a digit follow. -/
def startsStoreNumber (cs : List Char) : Bool :=
  match cs with
  | '#' :: d :: _ => d.isDigit
  | _ => false

/-- Continuation of `\s+\d\d\d-\d\d\d-\d\d\d\d.*$`: a phone number
follows. -/
def startsPhoneNumber (cs : List Char) : Bool :=
  match cs with
  | a :: b :: c :: '-' :: e :: f :: g :: '-' :: h :: i :: j :: k :: _ =>
    a.isDigit && b.isDigit && c.isDigit && e.isDigit && f.isDigit &&
      g.isDigit && h.isDigit && i.isDigit && j.isDigit && k.isDigit
  | _ => false

/-- Continuation of `\s+[A-Z][A-Z]$`: exactly two uppercase letters end the
string. -/
def isStateCodeEnd (cs : List Char) : Bool :=
  match cs with
  | [a, b] => a.isUpper && b.isUpper
  | _ => false

/-- `EnhancedChaseStatementAnalyzer.extract_vendor_key`
(src/chase_analysis.py): uppercase, strip trailing numbers, company
suffixes, store numbers, phone numbers and state codes, then keep the
first two words (or the first 20 characters as fallback). -/
def extract_vendor_key (merchant : String) : String :=
  let M := merchant.toList.map Char.toUpper
  let c1 := remTailSub startsDigitRun M
  let c2 := remTailSub startsCompanySuffix c1
  let c3 := remTailSub startsStoreNumber c2
  let c4 := remTailSub startsPhoneNumber c3
  let c5 := remTailSub isStateCodeEnd c4
  match pyWords c5 with
  | w1 :: w2 :: _ => String.mk (w1 ++ ' ' :: w2)
  | [w1] => String.mk w1
  | [] => String.mk (M.take 20)

/-- Key-part collection loop of `extract_vendor_key`
(src/utils/category_totals.py): keep words longer than two characters that
are not pure digit runs, stopping once two are collected. -/
def collectKeyParts : List (List Char) → List (List Char) → List (List Char)
  | [], acc => acc
  | p :: rest, acc =>
    let keep := p.length > 2 && !(!p.isEmpty && p.all (·.isDigit))
    let acc2 := if keep then acc ++ [p] else acc
    if acc2.length ≥ 2 then acc2 else collectKeyParts rest acc2

/-- `extract_vendor_key` (src/utils/category_totals.py): Amazon merchants
collapse to `AMAZON`; otherwise strip phone numbers, state codes, store
numbers and trailing numbers, shortening long names to their first two or
three meaningful words. -/
def ct_extract_vendor_key (merchant : String) : String :=
  let M := merchant.toList.map Char.toUpper
  if hasInfix M "AMAZON".toList || hasInfix M "AMZN".toList then "AMAZON"
  else
    let c1 := remTailSub startsPhoneNumber M
    let c2 := remTailSub isStateCodeEnd c1
    let c3 := remTailSub startsStoreNumber c2
    let c4 := remTailSub startsDigitRun c3
    let parts := pyWords c4
    let result :=
      if parts.length > 3 then
        let key_parts := collectKeyParts (parts.take 3) []
        if key_parts.isEmpty then
          (match parts with
            | p :: _ => p
            | [] => [])
        else List.intercalate [' '] key_parts
      else c4
    pyStrip (String.mk result)

/-- Python's `set.add` on a set modelled as a duplicate-free list. -/
def setAdd (s : List (String × String)) (x : String × String) : List (String × String) :=
  if x ∈ s then s else s ++ [x]

/-- Python's `d[k] = v` on a dict modelled as an insertion-ordered
association list: replace in place or append. -/
def dictInsert (d : List (String × String)) (k v : String) : List (String × String) :=
  match d with
  | [] => [(k, v)]
  | (k0, v0) :: rest =>
    if k0 = k then (k, v) :: rest else (k0, v0) :: dictInsert rest k v

/-- The best-match scan of `recategorize_transaction`
(src/chase_analysis.py): walk the override table in dict order keeping the
longest pattern (strictly longer than the best so far, starting from the
empty `best_pattern`) that occurs in the uppercased merchant. -/
def bestMatchFold (merchant_upper : String)
    (master_categories : List (String × String)) : Option (String × String) :=
  master_categories.foldl
    (fun acc pc =>
      if strContains merchant_upper (upperS pc.1) &&
          decide (pc.1.length >
            (match acc with
              | some b => (b : String × String).1.length
              | none => 0)) then
        some pc
      else acc)
    (none : Option (String × String))

/-- `EnhancedChaseStatementAnalyzer.recategorize_transaction`
(src/chase_analysis.py).  `userInput` is the oracle for the interactive
`input()` prompt.  Returns the final category, the new-vendor flag, and
the updated `new_vendors` set. -/
def recategorize_transaction (merchant original_category : String)
    (master_categories new_vendors : List (String × String))
    (interactive : Bool) (userInput : String) :
    String × Bool × List (String × String) :=
  let vendor_key := extract_vendor_key merchant
  let merchant_upper := upperS merchant
  if strContains merchant_upper "AMAZON" || strContains merchant_upper "AMZN" then
    match master_categories.lookup "AMAZON" with
    | none => ("MAINTENANCE", true, setAdd new_vendors ("AMAZON", "MAINTENANCE"))
    | some c => (c, false, new_vendors)
  else
    match bestMatchFold merchant_upper master_categories with
    | some bc => (bc.2, false, new_vendors)
    | none =>
      if interactive && original_category = "OTHER" then
        let user := pyStrip userInput
        let new_category := if user = "" then original_category else upperS user
        (new_category, true, setAdd new_vendors (vendor_key, new_category))
      else
        (original_category, true, setAdd new_vendors (vendor_key, original_category))

/-- `recategorize_transaction` (src/utils/category_totals.py): same Amazon
special case, then the first override pattern (in dict order) that occurs
in the uppercased merchant wins. -/
def ct_recategorize_transaction (merchant original_category : String)
    (master_categories new_vendors : List (String × String)) :
    String × Bool × List (String × String) :=
  let vendor_key := ct_extract_vendor_key merchant
  let merchant_upper := upperS merchant
  if strContains merchant_upper "AMAZON" || strContains merchant_upper "AMZN" then
    match master_categories.lookup "AMAZON" with
    | none => ("MAINTENANCE", true, setAdd new_vendors ("AMAZON", "MAINTENANCE"))
    | some c => (c, false, new_vendors)
  else
    match master_categories.find? (fun pc => strContains merchant_upper (upperS pc.1)) with
    | some pc => (pc.2, false, new_vendors)
    | none =>
      (original_category, true, setAdd new_vendors (vendor_key, original_category))

/-- The file-system facts `load_master_categories` depends on: whether the
master file exists, the outcome of creating it, and the outcome of reading
its data rows (each row a `vendor_pattern`/`category` pair). -/
structure MasterFS where
  fileExists : Bool
  createResult : Except String Unit
  readResult : Except String (List (String × String))

/-- The dict-building read loop of `load_master_categories`: strip both
fields of each row and store them. -/
def loadRows (rows : List (String × String)) : List (String × String) :=
  rows.foldl (fun d r => dictInsert d (pyStrip r.1) (pyStrip r.2)) []

/-- `load_master_categories` (src/chase_analysis.py and
src/utils/category_totals.py, which are line-for-line the same logic):
when the file is missing, write a header-only file (a failure to do so is
caught and only warned about) and return the empty table; when reading
fails, warn and return the empty table.  Returns the rule table and the
created file's rows when one was written.  Both `try`/`except` blocks are
embedded as total case splits on the outcomes, so no failure escapes. -/
def load_master_categories (fs : MasterFS) :
    List (String × String) × Option (List (List String)) :=
  if !fs.fileExists then
    match fs.createResult with
    | .ok _ => ([], some [["vendor_pattern", "category"]])
    | .error _ => ([], none)
  else
    match fs.readResult with
    | .ok rows => (loadRows rows, none)
    | .error _ => ([], none)

/-- `save_master_categories` (src/chase_analysis.py and
src/utils/category_totals.py): the data rows written to the master file,
`sorted(master_categories.items())`.  Python sorts the `(pattern,
category)` tuples lexicographically; since dict keys are unique, this is
the unique reordering that sorts the patterns, embedded here as an
insertion sort on the pattern key. -/
def save_master_categories (m : List (String × String)) : List (String × String) :=
  m.insertionSort (fun a b => a.1 ≤ b.1)

/-- The per-transaction loop of `apply_master_categorization`, threading
the recategorized-count and `new_vendors` accumulators in statement order
(the Python `for` loop mutates the dicts in place and appends nothing, so
building the updated records in order is the same traversal). -/
def apply_master_loop (master : List (String × String)) (interactive : Bool)
    (userInput : String) :
    List Txn → Nat → List (String × String) →
      List Txn × Nat × List (String × String)
  | [], cnt, nv => ([], cnt, nv)
  | t :: rest, cnt, nv =>
    let original_category := t.category
    let r :=
      if t.type == "Fee" && original_category == "CC FEES" then
        ("CC FEES", false, nv)
      else
        recategorize_transaction t.merchant original_category master nv
          interactive userInput
    let cnt2 := if r.1 ≠ original_category then cnt + 1 else cnt
    let res := apply_master_loop master interactive userInput rest cnt2 r.2.2
    ({ t with original_category := some original_category,
              category := r.1 } :: res.1, res.2)

/-- `EnhancedChaseStatementAnalyzer.apply_master_categorization`
(src/chase_analysis.py): with no master file configured the transactions
are returned untouched; otherwise every transaction is recategorized
(fee transactions already categorized `CC FEES` are preserved), its
previous category is recorded in `original_category`, and changed
categories are counted.  Returns the transactions, the count, and the
collected `new_vendors` set. -/
def apply_master_categorization (hasMasterFile : Bool) (fs : MasterFS)
    (txns : List Txn) (interactive : Bool) (userInput : String) :
    List Txn × Nat × List (String × String) :=
  if !hasMasterFile then (txns, 0, [])
  else
    apply_master_loop (load_master_categories fs).1 interactive userInput
      txns 0 []

/-- One data row of an extracted-transactions CSV file
(src/utils/category_totals.py).  Amounts are modelled as exact
rationals. -/
structure CsvRow where
  date : String
  cardholder : String
  merchant : String
  amount : ℚ
  type : String
  category : String
  deriving Repr, DecidableEq

/-- Python's `f"..x:.2f.."` formatting of the written amount, as the exact
rational it denotes: rounding to whole cents.  (Python rounds the
underlying binary float half-to-even; on amounts that are already whole
cents — the only ones this code writes back — both roundings are the
identity.) -/
def format2 (x : ℚ) : ℚ :=
  ((round (x * 100) : ℤ) : ℚ) / 100

/-- `add_misc_balancing_entry` (src/utils/category_totals.py): append a
`MISC BALANCE ADJUSTMENT` row carrying `difference_amount`, dated like the
last existing row (`nowDate` stands for `datetime.now()` when the file has
no rows). -/
def add_misc_balancing_entry (nowDate : String) (rows : List CsvRow)
    (difference_amount : ℚ) : List CsvRow :=
  let last_date := match rows.getLast? with
    | some r => r.date
    | none => nowDate
  rows ++ [{ date := last_date, cardholder := "SYSTEM",
             merchant := "MISC BALANCE ADJUSTMENT",
             amount := format2 difference_amount,
             type := "Adjustment", category := "MISCELLANEOUS" }]

/-- `check_and_balance_csv` (src/utils/category_totals.py): when the
computed total is a small nonzero amount (strictly between 0 and the
tolerance in absolute value), append the opposite amount as a balancing
entry.  Returns the resulting file rows and whether an entry was added. -/
def check_and_balance_csv (nowDate : String) (rows : List CsvRow)
    (total_amount : ℚ) (tolerance : ℚ) : List CsvRow × Bool :=
  if 0 < |total_amount| ∧ |total_amount| < tolerance then
    (add_misc_balancing_entry nowDate rows (-total_amount), true)
  else (rows, false)

/-- Sum of the amounts of a CSV file's rows. -/
def csvTotal (rows : List CsvRow) : ℚ :=
  (rows.map (·.amount)).sum

/-- The March 2025 sample statement text hardcoded in
`ChaseStatementAnalyzer.extract_pdf_content`
(src/utils/interim_chase_analysis.py). -/
def march2025Text : String :=
  "\nPrevious Balance $7,471.35\nPayment, Credits -$7,471.35\nPurchases +$4,107.99\nCash Advances $0.00\nBalance Transfers $0.00\nFees Charged $0.00\nInterest Charged $0.00\nOpening/Closing Date 02/07/25 - 03/06/25\nNew Balance $4,107.99\n"

/-- The July 2025 sample statement text hardcoded in
`ChaseStatementAnalyzer.extract_pdf_content`
(src/utils/interim_chase_analysis.py). -/
def july2025Text : String :=
  "\nPrevious Balance $22,898.07\nPayment, Credits -$22,898.07\nPurchases +$20,482.54\nCash Advances $0.00\nBalance Transfers $0.00\nFees Charged $0.00\nInterest Charged $0.00\nOpening/Closing Date 06/07/25 - 07/06/25\nNew Balance $20,482.54\n"

/-- `ChaseStatementAnalyzer.extract_pdf_content`
(src/utils/interim_chase_analysis.py): the returned text depends only on
the base file name (`filename = os.path.basename(pdf_path)`) and on
whether the file exists; the bytes on disk (`diskContents`) are never
read.  A missing file raises `FileNotFoundError`, which the function's own
`except` catches, returning the empty string. -/
def interim_extract_pdf_content (fileExists : Bool) (filename : String)
    (diskContents : String) : String :=
  if fileExists then
    if strContains filename "20250306-statements-0801-.pdf" then march2025Text
    else if strContains filename "20250706-statements-0801-.pdf" then july2025Text
    else ""
  else ""

/-- The fields of `RealChaseStatementAnalyzer` read by its `verify_totals`
(src/real_chase_analysis.py). -/
structure RealAnalyzerState where
  pdf_file : String
  transactions : List Txn
  statement_purchase_total : ℚ
  statement_payment_total : ℚ
  statement_previous_balance : ℚ
  statement_new_balance : ℚ
  deriving Repr

/-- The dict returned by `RealChaseStatementAnalyzer.verify_totals`. -/
structure RealVerifyResult where
  purchase_total_calculated : ℚ
  purchase_total_statement : ℚ
  purchase_match : Bool
  payment_total_calculated : ℚ
  payment_total_statement : ℚ
  payment_match : Bool
  total_transactions : Nat
  purchase_count : Nat
  payment_count : Nat
  deriving Repr

/-- `RealChaseStatementAnalyzer.verify_totals` (src/real_chase_analysis.py):
every extracted transaction counts as a purchase and the sum is always
compared against the statement purchase total. -/
def real_verify_totals (s : RealAnalyzerState) : RealVerifyResult :=
  let purchases := s.transactions
  let calculated_purchase_total := (purchases.map (·.amount)).sum
  let purchase_match :=
    |calculated_purchase_total - s.statement_purchase_total| < 1/100
  { purchase_total_calculated := calculated_purchase_total
    purchase_total_statement := s.statement_purchase_total
    purchase_match := decide purchase_match
    payment_total_calculated := 0
    payment_total_statement := s.statement_payment_total
    payment_match := true
    total_transactions := s.transactions.length
    purchase_count := purchases.length
    payment_count := 0 }

/-- The discrepancy `display_category_table` reconciles: statement
comparison amount minus category sum (`diff` in the source). -/
def categoryDiff (s : AnalyzerState) : ℚ :=
  statementComparisonAmount s - statsTotal (buildCategoryStats s.transactions)

/-- A one-purchase analyzer state over a 15-dollar statement balance,
used to exercise `display_category_table` at concrete inputs. -/
def cardState (cat : String) : AnalyzerState :=
  { pdf_file := "card.pdf",
    transactions := [{ date := "2025/01/02", cardholder := "A",
                       merchant := "M", amount := 10,
                       type := "Purchase", category := cat }],
    statement_previous_balance := 0, statement_new_balance := 15,
    statement_purchase_total := 0, statement_payment_total := 0 }

/-- A plain purchase record for concrete evaluations. -/
def sampleTxn : Txn :=
  { date := "2025/01/02", cardholder := "A", merchant := "M",
    amount := 10, type := "Purchase", category := "OTHER" }

/-- A present, readable, empty master file. -/
def sampleFS : MasterFS :=
  { fileExists := true, createResult := Except.ok (),
    readResult := Except.ok [] }

/-- The sign discipline of extracted records: purchases and fees are
non-negative, credits strictly negative. -/
def signOK (t : Txn) : Prop :=
  ((t.type = "Purchase" ∨ t.type = "Fee") → 0 ≤ t.amount) ∧
    (t.type = "Credit" → t.amount < 0)

/-- Invariant of the first-pass loop state: collected transactions obey
the sign discipline and stored credits are strictly negative credits. -/
def loopInv5136 (st : Loop5136State) : Prop :=
  (∀ t ∈ st.all_transactions, signOK t) ∧
    (∀ t ∈ st.credits_to_include, t.type = "Credit" ∧ t.amount < 0)

/-! ## Theorems -/

/-- `updateStats` adds the new amount to the table total. -/
theorem statsTotal_updateStats (stats : CategoryStats) (cat : String) (a : ℚ) :
    statsTotal (updateStats stats cat a) = statsTotal stats + a := by
  induction stats with
  | nil => simp [updateStats, statsTotal]
  | cons e rest ih =>
    obtain ⟨c, n, amt⟩ := e
    by_cases hc : c = cat
    · simp [updateStats, hc, statsTotal]
      ring
    · simp [updateStats, hc, statsTotal] at ih ⊢
      rw [ih]
      ring

/-- The category table total is the transaction amount total. -/
theorem statsTotal_buildCategoryStats (txns : List Txn) :
    statsTotal (buildCategoryStats txns) = (txns.map (·.amount)).sum := by
  suffices h : ∀ (acc : CategoryStats),
      statsTotal (txns.foldl (fun stats t => updateStats stats t.category t.amount) acc) =
        statsTotal acc + (txns.map (·.amount)).sum by
    simpa [buildCategoryStats, statsTotal] using h []
  induction txns with
  | nil => intro acc; simp
  | cons t rest ih =>
    intro acc
    simp only [List.foldl_cons, List.map_cons, List.sum_cons]
    rw [ih, statsTotal_updateStats]
    ring

/-- `updateStats` introduces no key other than the updated one. -/
theorem updateStats_keys (stats : CategoryStats) (cat : String) (a : ℚ)
    {k : String} (hk : k ∉ stats.map Prod.fst) (hne : k ≠ cat) :
    k ∉ (updateStats stats cat a).map Prod.fst := by
  induction stats with
  | nil => simpa [updateStats] using hne
  | cons e rest ih =>
    obtain ⟨c, n, amt⟩ := e
    simp only [List.map_cons, List.mem_cons, not_or] at hk
    by_cases hc : c = cat
    · simp [updateStats, hc, hne, hk.2]
    · simp only [updateStats, hc, if_false, List.map_cons, List.mem_cons, not_or]
      exact ⟨hk.1, ih hk.2⟩

/-- When no transaction is categorized `MISC`, the built table has no
`MISC` key. -/
theorem buildCategoryStats_no_misc (txns : List Txn)
    (h : ∀ t ∈ txns, t.category ≠ "MISC") :
    "MISC" ∉ (buildCategoryStats txns).map Prod.fst := by
  suffices hs : ∀ (l : List Txn) (acc : CategoryStats),
      (∀ t ∈ l, t.category ≠ "MISC") → "MISC" ∉ acc.map Prod.fst →
        "MISC" ∉ ((l.foldl (fun stats t => updateStats stats t.category t.amount) acc).map
          Prod.fst) from hs txns [] h (by simp)
  intro l
  induction l with
  | nil => intro acc _ hacc; simpa using hacc
  | cons t rest ih =>
    intro acc hl hacc
    simp only [List.foldl_cons]
    exact ih _ (fun x hx => hl x (by simp [hx]))
      (updateStats_keys acc t.category t.amount hacc
        (fun he => hl t (by simp) he.symm))

/-- The injected `MISC` entry is present with count 1 and the given
amount. -/
theorem injectMisc_mem (stats : CategoryStats) (d : ℚ) :
    ("MISC", 1, d) ∈ injectMisc stats d := by
  induction stats with
  | nil => simp [injectMisc]
  | cons e rest ih =>
    obtain ⟨c, n, amt⟩ := e
    by_cases hc : c = "MISC"
    · simp [injectMisc, hc]
    · simp [injectMisc, hc, ih]

/-- Injecting `MISC` into a table lacking the key adds the amount to the
total. -/
theorem statsTotal_injectMisc (stats : CategoryStats) (d : ℚ)
    (h : "MISC" ∉ stats.map Prod.fst) :
    statsTotal (injectMisc stats d) = statsTotal stats + d := by
  induction stats with
  | nil => simp [injectMisc, statsTotal]
  | cons e rest ih =>
    obtain ⟨c, n, amt⟩ := e
    simp only [List.map_cons, List.mem_cons, not_or] at h
    have hc : ¬(c = "MISC") := fun he => h.1 he.symm
    simp only [injectMisc, hc, if_false, statsTotal, List.map_cons, List.sum_cons] at ih ⊢
    rw [ih h.2]
    ring

/-- The adjusted display list is a permutation of the stats table. -/
theorem adjustedDisplayList_perm (stats : CategoryStats) :
    (adjustedDisplayList stats).Perm stats := by
  unfold adjustedDisplayList
  have hs : (List.insertionSort (fun a b => b.2.2 ≤ a.2.2)
      (stats.filter (fun e => e.1 ≠ "MISC"))).Perm
      (stats.filter (fun e => e.1 ≠ "MISC")) :=
    List.perm_insertionSort _ _
  refine (hs.append_right _).trans ?_
  have hfilters : stats.filter (fun e => e.1 ≠ "MISC") =
      stats.filter (fun e => !(e.1 = "MISC")) := by
    apply List.filter_congr
    intro x _
    simp
  rw [hfilters]
  exact (List.perm_append_comm).trans (List.filter_append_perm _ stats)

/-- Permutations preserve the table total. -/
theorem statsTotal_perm {s1 s2 : CategoryStats} (h : s1.Perm s2) :
    statsTotal s1 = statsTotal s2 := by
  unfold statsTotal
  exact (h.map _).sum_eq


/-- `format2` is the identity on whole-cent amounts. -/
theorem format2_cents (n : ℤ) : format2 ((n : ℚ) / 100) = (n : ℚ) / 100 := by
  unfold format2
  have h : ((n : ℚ) / 100) * 100 = (n : ℚ) := by
    field_simp
  rw [h, round_intCast]

/-- A sum of whole-cent amounts is a whole-cent amount. -/
theorem csvTotal_cents (rows : List CsvRow)
    (h : ∀ r ∈ rows, ∃ n : ℤ, r.amount = (n : ℚ) / 100) :
    ∃ m : ℤ, csvTotal rows = (m : ℚ) / 100 := by
  induction rows with
  | nil => exact ⟨0, by simp [csvTotal]⟩
  | cons r rest ih =>
    obtain ⟨n, hn⟩ := h r (by simp)
    obtain ⟨m, hm⟩ := ih (fun x hx => h x (by simp [hx]))
    refine ⟨n + m, ?_⟩
    simp only [csvTotal, List.map_cons, List.sum_cons] at *
    rw [hn, hm]
    push_cast
    ring

/-- `add_misc_balancing_entry` adds the (cent-rounded) difference to the
file total. -/
theorem csvTotal_add_misc (nowDate : String) (rows : List CsvRow) (d : ℚ) :
    csvTotal (add_misc_balancing_entry nowDate rows d) =
      csvTotal rows + format2 d := by
  unfold add_misc_balancing_entry
  simp [csvTotal]

/-- C6: `extract_pdf_content` in `interim_chase_analysis.py` returns, for
the base file name `20250306-statements-0801-.pdf` of an existing file,
the March 2025 text block hardcoded in the source, whatever the bytes on
disk are: the result is a fixed constant of the file name alone. -/
theorem interim_extract_pdf_content_hardcoded (c1 c2 : String) :
    interim_extract_pdf_content true "20250306-statements-0801-.pdf" c1 =
        march2025Text ∧
      interim_extract_pdf_content true "20250306-statements-0801-.pdf" c1 =
        interim_extract_pdf_content true "20250306-statements-0801-.pdf" c2 := by
  constructor <;> rfl

/-- C5: `check_and_balance_csv` appends a `MISC BALANCE ADJUSTMENT` row if
and only if the computed total of the file's whole-cent amounts is
strictly between 0 and the tolerance in absolute value; the appended row
carries the negated total, and the resulting file sums to exactly zero. -/
theorem check_and_balance_csv_balances (nowDate : String) (rows : List CsvRow)
    (tolerance : ℚ)
    (hcents : ∀ r ∈ rows, ∃ n : ℤ, r.amount = (n : ℚ) / 100) :
    ((check_and_balance_csv nowDate rows (csvTotal rows) tolerance).2 = true ↔
        0 < |csvTotal rows| ∧ |csvTotal rows| < tolerance) ∧
      ((check_and_balance_csv nowDate rows (csvTotal rows) tolerance).2 = true →
        ∃ row,
          (check_and_balance_csv nowDate rows (csvTotal rows) tolerance).1 =
              rows ++ [row] ∧
            row.merchant = "MISC BALANCE ADJUSTMENT" ∧
            row.amount = -(csvTotal rows) ∧
            csvTotal
              (check_and_balance_csv nowDate rows (csvTotal rows) tolerance).1 = 0) ∧
      ((check_and_balance_csv nowDate rows (csvTotal rows) tolerance).2 = false →
        (check_and_balance_csv nowDate rows (csvTotal rows) tolerance).1 = rows) := by
  obtain ⟨m, hm⟩ := csvTotal_cents rows hcents
  have hfmt : format2 (-(csvTotal rows)) = -(csvTotal rows) := by
    have hcast : -(csvTotal rows) = ((-m : ℤ) : ℚ) / 100 := by
      rw [hm]; push_cast; ring
    rw [hcast]
    exact format2_cents (-m)
  unfold check_and_balance_csv
  by_cases hc : 0 < |csvTotal rows| ∧ |csvTotal rows| < tolerance
  · rw [if_pos hc]
    refine ⟨by simp [hc], fun _ => ?_, by simp⟩
    refine ⟨_, rfl, rfl, hfmt, ?_⟩
    rw [csvTotal_add_misc, hfmt]
    ring
  · rw [if_neg hc]
    exact ⟨by simpa using hc, by simp, fun _ => rfl⟩

/-- Witness for `check_and_balance_csv_balances` at a one-row file holding
25 cents with the default tolerance of 1.00. -/
theorem check_and_balance_csv_balances_witness :
    (∀ r ∈ [({ date := "2025/01/01", cardholder := "A", merchant := "M",
               amount := (25 : ℚ) / 100, type := "Purchase",
               category := "OTHER" } : CsvRow)], ∃ n : ℤ, r.amount = (n : ℚ) / 100) ∧
      ((check_and_balance_csv "2025/02/02"
          [{ date := "2025/01/01", cardholder := "A", merchant := "M",
             amount := (25 : ℚ) / 100, type := "Purchase", category := "OTHER" }]
          (csvTotal
            [{ date := "2025/01/01", cardholder := "A", merchant := "M",
               amount := (25 : ℚ) / 100, type := "Purchase", category := "OTHER" }])
          1).2 = true ↔
        0 < |csvTotal
            [{ date := "2025/01/01", cardholder := "A", merchant := "M",
               amount := (25 : ℚ) / 100, type := "Purchase", category := "OTHER" }]| ∧
          |csvTotal
            [{ date := "2025/01/01", cardholder := "A", merchant := "M",
               amount := (25 : ℚ) / 100, type := "Purchase", category := "OTHER" }]| < 1) := by
  have h := check_and_balance_csv_balances "2025/02/02"
    [{ date := "2025/01/01", cardholder := "A", merchant := "M",
       amount := (25 : ℚ) / 100, type := "Purchase", category := "OTHER" }]
    1 (by intro r hr; simp at hr; exact ⟨25, by rw [hr]; norm_num⟩)
  exact ⟨by intro r hr; simp at hr; exact ⟨25, by rw [hr]; norm_num⟩, h.1⟩

/-- C7: `load_master_categories` survives both failure modes without
raising: a missing master file yields the empty rule table (and, when the
create succeeds, a file holding only the header row), and a failing read
yields the empty rule table. -/
theorem load_master_categories_never_raises (fs : MasterFS) :
    (fs.fileExists = false →
        (load_master_categories fs).1 = [] ∧
          (∀ u, fs.createResult = Except.ok u →
            (load_master_categories fs).2 = some [["vendor_pattern", "category"]])) ∧
      (∀ e, fs.readResult = Except.error e → (load_master_categories fs).1 = []) := by
  refine ⟨fun hex => ⟨?_, ?_⟩, fun e he => ?_⟩
  · unfold load_master_categories
    rw [hex]
    cases fs.createResult <;> rfl
  · intro u hu
    unfold load_master_categories
    rw [hex, hu]
    rfl
  · unfold load_master_categories
    cases hex : fs.fileExists with
    | false => cases fs.createResult <;> rfl
    | true => rw [he]; rfl

/-- Witness for `load_master_categories_never_raises`: a missing file with
a succeeding create, and a present file whose read fails. -/
theorem load_master_categories_never_raises_witness :
    ((false : Bool) = false ∧
        (load_master_categories
            { fileExists := false, createResult := Except.ok (),
              readResult := Except.ok [] }).1 = [] ∧
        (load_master_categories
            { fileExists := false, createResult := Except.ok (),
              readResult := Except.ok [] }).2 =
          some [["vendor_pattern", "category"]]) ∧
      ((Except.error "boom" : Except String (List (String × String))) =
          Except.error "boom" ∧
        (load_master_categories
            { fileExists := true, createResult := Except.ok (),
              readResult := Except.error "boom" }).1 = []) := by
  have h1 := load_master_categories_never_raises
    { fileExists := false, createResult := Except.ok (),
      readResult := Except.ok [] }
  have h2 := load_master_categories_never_raises
    { fileExists := true, createResult := Except.ok (),
      readResult := Except.error "boom" }
  exact ⟨⟨rfl, (h1.1 rfl).1, (h1.1 rfl).2 () rfl⟩, rfl, h2.2 "boom" rfl⟩

/-- C1, counterexample: `RealChaseStatementAnalyzer.verify_totals` reports
a match for a file whose name lacks `8635` even though the transaction sum
is nowhere near the statement new balance — it always compares against the
statement purchase total, contradicting the claimed
"otherwise … statement new balance" rule. -/
theorem real_verify_totals_not_new_balance :
    (real_verify_totals
        { pdf_file := "statement.pdf",
          transactions := [{ date := "2025/01/01", cardholder := "A",
                             merchant := "M", amount := 100,
                             type := "Purchase", category := "OTHER" }],
          statement_purchase_total := 100, statement_payment_total := 0,
          statement_previous_balance := 0,
          statement_new_balance := 0 }).purchase_match = true ∧
      strContains "statement.pdf" "8635" = false ∧
      ¬(abs (([({ date := "2025/01/01", cardholder := "A", merchant := "M",
                  amount := 100, type := "Purchase",
                  category := "OTHER" } : Txn)].map (·.amount)).sum - (0 : ℚ)) <
          1 / 100) := by
  refine ⟨?_, by decide, ?_⟩
  · simp only [real_verify_totals, List.map_cons, List.map_nil, List.sum_cons,
      List.sum_nil, decide_eq_true_eq]
    norm_num
  · simp only [List.map_cons, List.map_nil, List.sum_cons, List.sum_nil]
    rw [show ((100 : ℚ) + 0 - 0) = 100 by ring, abs_of_nonneg (by norm_num)]
    norm_num

/-- C1 (amended): `EnhancedChaseStatementAnalyzer.verify_totals` matches
iff the compared sum is within one cent of the compared statement figure —
purchases only against the statement purchase total when the file name
contains `8635`, and the sum of all extracted transactions against the
statement new balance otherwise (including `1250`) — while
`RealChaseStatementAnalyzer.verify_totals` always compares the sum of all
its extracted transactions against the statement purchase total. -/
theorem verify_totals_purchase_match_spec (s : AnalyzerState)
    (r : RealAnalyzerState) :
    ((verify_totals s).purchase_match = true ↔
        (if strContains s.pdf_file "8635" = true then
          |((s.transactions.filter (·.type == "Purchase")).map (·.amount)).sum -
              s.statement_purchase_total| < 1 / 100
        else
          |(s.transactions.map (·.amount)).sum - s.statement_new_balance| <
            1 / 100)) ∧
      ((real_verify_totals r).purchase_match = true ↔
        |(r.transactions.map (·.amount)).sum - r.statement_purchase_total| <
          1 / 100) := by
  constructor
  · simp only [verify_totals, decide_eq_true_eq]
    split_ifs <;> simp_all
  · simp only [real_verify_totals, decide_eq_true_eq]

/-- Any witness of `findSome? = some` comes from a member of the list. -/
theorem findSome?_eq_some_imp {α β : Type} {f : α → Option β} :
    ∀ {l : List α} {b : β}, l.findSome? f = some b → ∃ a ∈ l, f a = some b := by
  intro l
  induction l with
  | nil => intro b h; simp [List.findSome?] at h
  | cons a as ih =>
    intro b h
    cases hfa : f a with
    | some c =>
      refine ⟨a, by simp, ?_⟩
      simp only [List.findSome?, hfa] at h
      rw [hfa, h]
    | none =>
      simp only [List.findSome?, hfa] at h
      obtain ⟨x, hx, hfx⟩ := ih h
      exact ⟨x, by simp [hx], hfx⟩

/-- `findSome?` succeeds when some member succeeds. -/
theorem findSome?_isSome_of_mem {α β : Type} {f : α → Option β} :
    ∀ {l : List α} {a : α}, a ∈ l → (f a).isSome = true →
      (l.findSome? f).isSome = true := by
  intro l
  induction l with
  | nil => intro a ha; simp at ha
  | cons x xs ih =>
    intro a ha hfa
    cases hfx : f x with
    | some c => simp [List.findSome?, hfx]
    | none =>
      simp only [List.findSome?, hfx]
      rcases List.mem_cons.mp ha with rfl | hmem
      · rw [hfx] at hfa; simp at hfa
      · exact ih hmem hfa

/-- A successful `detectAccountLine` returns one of the four suffixes and
only fires on lines containing `Account Number:` and that suffix. -/
theorem detectAccountLine_sound {l s : String}
    (h : detectAccountLine l = some s) :
    (s = "5136" ∨ s = "0801" ∨ s = "8635" ∨ s = "1250") ∧
      strContains l "Account Number:" = true ∧ strContains l s = true := by
  unfold detectAccountLine at h
  split_ifs at h with h1 h2 h3 h4 h5 <;> simp_all

/-- `detectAccountLine` fires on any line containing `Account Number:`
together with one of the four suffixes. -/
theorem detectAccountLine_complete {l : String}
    (han : strContains l "Account Number:" = true)
    (hsuf : strContains l "5136" = true ∨ strContains l "0801" = true ∨
      strContains l "8635" = true ∨ strContains l "1250" = true) :
    (detectAccountLine l).isSome = true := by
  unfold detectAccountLine
  split_ifs <;> simp_all

/-- C4: `detect_statement_format` always returns one of the four known
formats; when one of the first 50 lines contains `Account Number:` with a
known suffix the result is a suffix co-occurring with `Account Number:` in
one of those lines; and when no such line exists the keyword fallbacks on
the uppercased join of the first 50 lines decide, defaulting to `5136`. -/
theorem detect_statement_format_spec (lines : List String) :
    (detect_statement_format lines = "5136" ∨
        detect_statement_format lines = "0801" ∨
        detect_statement_format lines = "8635" ∨
        detect_statement_format lines = "1250") ∧
      ((∃ l ∈ lines.take 50, strContains l "Account Number:" = true ∧
          (strContains l "5136" = true ∨ strContains l "0801" = true ∨
            strContains l "8635" = true ∨ strContains l "1250" = true)) →
        ∃ s, detect_statement_format lines = s ∧
          (s = "5136" ∨ s = "0801" ∨ s = "8635" ∨ s = "1250") ∧
          ∃ l ∈ lines.take 50, strContains l "Account Number:" = true ∧
            strContains l s = true) ∧
      ((∀ l ∈ lines.take 50, ¬(strContains l "Account Number:" = true ∧
          (strContains l "5136" = true ∨ strContains l "0801" = true ∨
            strContains l "8635" = true ∨ strContains l "1250" = true))) →
        detect_statement_format lines =
          (if strContains (upperS (String.intercalate "\n" (lines.take 50)))
                "PAYMENTS AND OTHER CREDITS" = true ∧
              strContains (upperS (String.intercalate "\n" (lines.take 50)))
                "PURCHASE" = true then "8635"
          else if strContains (upperS (String.intercalate "\n" (lines.take 50)))
              "DATE OF TRANSACTION" = true then "5136"
          else if strContains (upperS (String.intercalate "\n" (lines.take 50)))
              "TRANSACTIONS THIS CYCLE" = true then "0801"
          else "5136")) := by
  refine ⟨?_, ?_, ?_⟩
  · cases hfind : (lines.take 50).findSome? detectAccountLine with
    | some s =>
      obtain ⟨l, _, hl⟩ := findSome?_eq_some_imp hfind
      simp only [detect_statement_format, hfind]
      exact (detectAccountLine_sound hl).1
    | none =>
      simp only [detect_statement_format, hfind]
      split_ifs <;> simp
  · intro ⟨l, hmem, han, hsuf⟩
    have hsome := findSome?_isSome_of_mem hmem (detectAccountLine_complete han hsuf)
    cases hfind : (lines.take 50).findSome? detectAccountLine with
    | none => rw [hfind] at hsome; simp at hsome
    | some s =>
      obtain ⟨l2, hmem2, hl2⟩ := findSome?_eq_some_imp hfind
      obtain ⟨hfour, han2, hs2⟩ := detectAccountLine_sound hl2
      refine ⟨s, ?_, hfour, l2, hmem2, han2, hs2⟩
      simp only [detect_statement_format, hfind]
  · intro hnone
    have hno : ∀ l ∈ lines.take 50, detectAccountLine l = none := by
      intro l hl
      cases hdl : detectAccountLine l with
      | none => rfl
      | some s =>
        obtain ⟨hfour, han, hs⟩ := detectAccountLine_sound hdl
        exact absurd ⟨han, by rcases hfour with h | h | h | h <;> rw [h] at hs <;> tauto⟩
          (hnone l hl)
    have hfind : (lines.take 50).findSome? detectAccountLine = none := by
      cases hfind : (lines.take 50).findSome? detectAccountLine with
      | none => rfl
      | some s =>
        obtain ⟨l, hmem, hl⟩ := findSome?_eq_some_imp hfind
        rw [hno l hmem] at hl
        cases hl
    simp only [detect_statement_format, hfind]
    split_ifs <;> simp_all

/-- Witness for `detect_statement_format_spec` on a one-line statement
whose account number ends in 0801, and on a keyword-only statement. -/
theorem detect_statement_format_spec_witness :
    (∃ s, detect_statement_format ["Account Number: XXXX 0801"] = s ∧
        (s = "5136" ∨ s = "0801" ∨ s = "8635" ∨ s = "1250") ∧
        ∃ l ∈ (["Account Number: XXXX 0801"] : List String).take 50,
          strContains l "Account Number:" = true ∧ strContains l s = true) ∧
      detect_statement_format ["TRANSACTIONS THIS CYCLE"] =
        (if strContains (upperS (String.intercalate "\n"
              ((["TRANSACTIONS THIS CYCLE"] : List String).take 50)))
              "PAYMENTS AND OTHER CREDITS" = true ∧
            strContains (upperS (String.intercalate "\n"
              ((["TRANSACTIONS THIS CYCLE"] : List String).take 50)))
              "PURCHASE" = true then "8635"
        else if strContains (upperS (String.intercalate "\n"
            ((["TRANSACTIONS THIS CYCLE"] : List String).take 50)))
            "DATE OF TRANSACTION" = true then "5136"
        else if strContains (upperS (String.intercalate "\n"
            ((["TRANSACTIONS THIS CYCLE"] : List String).take 50)))
            "TRANSACTIONS THIS CYCLE" = true then "0801"
        else "5136") :=
  ⟨(detect_statement_format_spec ["Account Number: XXXX 0801"]).2.1
      ⟨"Account Number: XXXX 0801", by decide, by decide, by decide⟩,
    (detect_statement_format_spec ["TRANSACTIONS THIS CYCLE"]).2.2
      (by decide)⟩

/-- For non-`8635` statements with transactions, `display_category_table`
reduces to the new-balance comparison with the MISC-injection window. -/
theorem display_category_table_eq_of_not8635 (s : AnalyzerState)
    (hne2 : s.transactions.isEmpty = false)
    (h86 : strContains s.pdf_file "8635" = false) :
    display_category_table s =
      (if |s.statement_new_balance - statsTotal (buildCategoryStats s.transactions)| <
          1 / 100 then none
      else if |s.statement_new_balance - statsTotal (buildCategoryStats s.transactions)| ≤
          300 then
        some (adjustedDisplayList (injectMisc (buildCategoryStats s.transactions)
          (s.statement_new_balance - statsTotal (buildCategoryStats s.transactions))))
      else none) := by
  simp only [display_category_table, hne2, h86]
  by_cases h12 : strContains s.pdf_file "1250" = true <;> simp [h12]

/-- C2, counterexample: when a transaction is itself categorized `MISC`,
the injected entry overwrites its accumulated row, and the adjusted
category total does not equal the statement comparison amount even though
the discrepancy was within the adjustment window. -/
theorem display_category_table_misc_overwrite :
    ¬(|categoryDiff (cardState "MISC")| < 1 / 100) ∧
      |categoryDiff (cardState "MISC")| ≤ 300 ∧
      display_category_table (cardState "MISC") = some [("MISC", 1, (5 : ℚ))] ∧
      statsTotal [("MISC", 1, (5 : ℚ))] ≠
        statementComparisonAmount (cardState "MISC") := by
  have h86 : strContains "card.pdf" "8635" = false := by decide
  have hsca : statementComparisonAmount (cardState "MISC") = 15 := by
    simp [statementComparisonAmount, cardState, h86]
  have hbuild : buildCategoryStats (cardState "MISC").transactions =
      [("MISC", 1, (10 : ℚ))] := by
    simp [cardState, buildCategoryStats, updateStats]
  have hdiff : categoryDiff (cardState "MISC") = 5 := by
    rw [categoryDiff, hsca, hbuild]
    simp [statsTotal]
    norm_num
  refine ⟨?_, ?_, ?_, ?_⟩
  · rw [hdiff, abs_of_nonneg (by norm_num : (0 : ℚ) ≤ 5)]
    norm_num
  · rw [hdiff, abs_of_nonneg (by norm_num : (0 : ℚ) ≤ 5)]
    norm_num
  · rw [display_category_table_eq_of_not8635 (cardState "MISC") (by decide)
        (by decide), hbuild]
    have hval : (cardState "MISC").statement_new_balance -
        statsTotal [("MISC", 1, (10 : ℚ))] = 5 := by
      norm_num [cardState, statsTotal]
    rw [hval]
    rw [if_neg (by rw [abs_of_nonneg (by norm_num : (0 : ℚ) ≤ 5)]; norm_num),
      if_pos (by rw [abs_of_nonneg (by norm_num : (0 : ℚ) ≤ 5)]; norm_num)]
    simp [injectMisc, adjustedDisplayList, List.insertionSort]
  · rw [hsca]
    simp [statsTotal]

/-- C2 (amended): provided the analyzer extracted at least one transaction
and none of them is categorized `MISC`, `display_category_table` injects a
synthetic `MISC` entry with count 1 and amount equal to the discrepancy
whenever the category sum differs from the statement comparison amount by
at least one cent and by at most 300 dollars, making the adjusted total
equal that amount exactly; a discrepancy above 300 dollars leaves the
table unadjusted. -/
theorem display_category_table_misc_spec (s : AnalyzerState)
    (hne : s.transactions ≠ [])
    (hmisc : ∀ t ∈ s.transactions, t.category ≠ "MISC") :
    (1 / 100 ≤ |categoryDiff s| → |categoryDiff s| ≤ 300 →
        ∃ adj, display_category_table s = some adj ∧
          ("MISC", 1, categoryDiff s) ∈ adj ∧
          statsTotal adj = statementComparisonAmount s) ∧
      (300 < |categoryDiff s| → display_category_table s = none) := by
  have hkey := buildCategoryStats_no_misc s.transactions hmisc
  by_cases h86 : strContains s.pdf_file "8635" = true
  · have hdiff : categoryDiff s = 0 := by
      simp [categoryDiff, statementComparisonAmount, h86]
    constructor
    · intro h1 _
      rw [hdiff] at h1
      norm_num at h1
    · intro h2
      rw [hdiff] at h2
      norm_num at h2
  · have h86f : strContains s.pdf_file "8635" = false := by
      simpa using h86
    have hne2 : s.transactions.isEmpty = false := by
      cases h : s.transactions with
      | nil => exact absurd h hne
      | cons a l => simp [h]
    have hdiff : categoryDiff s =
        s.statement_new_balance - statsTotal (buildCategoryStats s.transactions) := by
      simp [categoryDiff, statementComparisonAmount, h86f]
    constructor
    · intro h1 h2
      refine ⟨adjustedDisplayList (injectMisc (buildCategoryStats s.transactions)
          (categoryDiff s)), ?_, ?_, ?_⟩
      · rw [display_category_table_eq_of_not8635 s hne2 h86f, ← hdiff,
          if_neg (not_lt.mpr h1), if_pos h2]
      · exact ((adjustedDisplayList_perm _).mem_iff).mpr (injectMisc_mem _ _)
      · rw [statsTotal_perm (adjustedDisplayList_perm _),
          statsTotal_injectMisc _ _ hkey, categoryDiff]
        ring
    · intro h2
      rw [display_category_table_eq_of_not8635 s hne2 h86f, ← hdiff,
        if_neg (by
          intro hlt
          rw [lt_iff_not_ge] at hlt
          exact hlt (le_trans (by norm_num) h2.le)),
        if_neg (not_le.mpr h2)]

/-- Witness for `display_category_table_misc_spec`: a single purchase of
10 dollars against a statement balance of 15 injects a `MISC` entry of 5
and reconciles the table. -/
theorem display_category_table_misc_spec_witness :
    ∃ adj, display_category_table (cardState "OTHER") = some adj ∧
      ("MISC", 1, categoryDiff (cardState "OTHER")) ∈ adj ∧
      statsTotal adj = statementComparisonAmount (cardState "OTHER") := by
  have hdiff : categoryDiff (cardState "OTHER") = 5 := by
    have h86 : strContains "card.pdf" "8635" = false := by decide
    simp [categoryDiff, statementComparisonAmount, cardState, h86,
      buildCategoryStats, updateStats, statsTotal]
    norm_num
  exact (display_category_table_misc_spec _ (by simp [cardState])
      (by intro t ht; simp [cardState] at ht; rw [ht]; decide)).1
    (by rw [hdiff, abs_of_nonneg (by norm_num : (0 : ℚ) ≤ 5)]; norm_num)
    (by rw [hdiff, abs_of_nonneg (by norm_num : (0 : ℚ) ≤ 5)]; norm_num)

/-- The frame relation `apply_master_loop` establishes between each input
transaction and its output record. -/
theorem apply_master_loop_frame (master : List (String × String))
    (interactive : Bool) (userInput : String) :
    ∀ (txns : List Txn) (cnt : Nat) (nv : List (String × String)),
      List.Forall₂
        (fun t t' =>
          t'.date = t.date ∧ t'.cardholder = t.cardholder ∧
            t'.merchant = t.merchant ∧ t'.amount = t.amount ∧
            t'.type = t.type ∧ t'.original_category = some t.category ∧
            (t.type = "Fee" ∧ t.category = "CC FEES" → t'.category = "CC FEES"))
        txns (apply_master_loop master interactive userInput txns cnt nv).1 := by
  intro txns
  induction txns with
  | nil => intro cnt nv; exact List.Forall₂.nil
  | cons t rest ih =>
    intro cnt nv
    refine List.Forall₂.cons ?_ (ih _ _)
    refine ⟨rfl, rfl, rfl, rfl, rfl, rfl, ?_⟩
    intro ⟨h1, h2⟩
    have hcond : (t.type == "Fee" && t.category == "CC FEES") = true := by
      simp [h1, h2]
    simp [hcond]

/-- C10, counterexample: with no master file configured
`apply_master_categorization` returns the transactions untouched, so
`original_category` is never set — it stays absent rather than holding the
entry category. -/
theorem apply_master_categorization_no_file :
    apply_master_categorization false sampleFS [sampleTxn] false "" =
        ([sampleTxn], 0, []) ∧
      sampleTxn.original_category = none ∧
      sampleTxn.category = "OTHER" := by
  exact ⟨rfl, rfl, rfl⟩

/-- C10 (amended): when a master file is configured,
`apply_master_categorization` leaves date, cardholder, merchant, amount
and type of every transaction unchanged, records the entry category in
`original_category`, and keeps `CC FEES` on fee transactions already so
categorized. -/
theorem apply_master_categorization_frame (fs : MasterFS) (txns : List Txn)
    (interactive : Bool) (userInput : String) :
    List.Forall₂
      (fun t t' =>
        t'.date = t.date ∧ t'.cardholder = t.cardholder ∧
          t'.merchant = t.merchant ∧ t'.amount = t.amount ∧
          t'.type = t.type ∧ t'.original_category = some t.category ∧
          (t.type = "Fee" ∧ t.category = "CC FEES" → t'.category = "CC FEES"))
      txns (apply_master_categorization true fs txns interactive userInput).1 := by
  unfold apply_master_categorization
  exact apply_master_loop_frame _ interactive userInput txns 0 []

/-- A successful best-match scan returns a table entry whose pattern
occurs in the merchant. -/
theorem bestMatchFold_some_mem {mu : String} {master : List (String × String)}
    {bc : String × String} (h : bestMatchFold mu master = some bc) :
    bc ∈ master ∧ strContains mu (upperS bc.1) = true := by
  unfold bestMatchFold at h
  suffices haux : ∀ (l : List (String × String)) (acc : Option (String × String)),
      l.foldl
        (fun acc pc =>
          if strContains mu (upperS pc.1) &&
              decide (pc.1.length >
                (match acc with
                  | some b => (b : String × String).1.length
                  | none => 0)) then
            some pc
          else acc) acc = some bc →
        acc = some bc ∨ (bc ∈ l ∧ strContains mu (upperS bc.1) = true) by
    rcases haux master none h with h1 | h2
    · cases h1
    · exact h2
  intro l
  induction l with
  | nil => intro acc h0; exact Or.inl h0
  | cons pc rest ih =>
    intro acc h0
    simp only [List.foldl_cons] at h0
    rcases ih _ h0 with h1 | h2
    · split at h1
      next hc =>
        have hbc : pc = bc := by injection h1
        subst hbc
        simp only [Bool.and_eq_true] at hc
        exact Or.inr ⟨List.mem_cons_self _ _, hc.1⟩
      next hc => exact Or.inl h1
    · exact Or.inr ⟨List.mem_cons_of_mem _ h2.1, h2.2⟩

/-- When no pattern occurs in the merchant the best-match scan fails. -/
theorem bestMatchFold_none_of_no_match {mu : String}
    {master : List (String × String)}
    (h : ∀ pc ∈ master, strContains mu (upperS pc.1) = false) :
    bestMatchFold mu master = none := by
  unfold bestMatchFold
  suffices haux : ∀ (l : List (String × String)) (acc : Option (String × String)),
      (∀ pc ∈ l, strContains mu (upperS pc.1) = false) →
        l.foldl
          (fun acc pc =>
            if strContains mu (upperS pc.1) &&
                decide (pc.1.length >
                  (match acc with
                    | some b => (b : String × String).1.length
                    | none => 0)) then
              some pc
            else acc) acc = acc from haux master none h
  intro l
  induction l with
  | nil => intro acc _; rfl
  | cons pc rest ih =>
    intro acc h0
    simp only [List.foldl_cons]
    have hm : strContains mu (upperS pc.1) = false := h0 pc (by simp)
    rw [if_neg (by simp [hm])]
    exact ih acc (fun x hx => h0 x (by simp [hx]))

/-- Once the best-match scan holds a candidate it never drops it. -/
theorem bestMatchFold_preserve_some {mu : String} :
    ∀ (l : List (String × String)) (b : String × String),
      ∃ bc, l.foldl
        (fun acc pc =>
          if strContains mu (upperS pc.1) &&
              decide (pc.1.length >
                (match acc with
                  | some b => (b : String × String).1.length
                  | none => 0)) then
            some pc
          else acc) (some b) = some bc := by
  intro l
  induction l with
  | nil => intro b; exact ⟨b, rfl⟩
  | cons pc rest ih =>
    intro b
    simp only [List.foldl_cons]
    by_cases hc : (strContains mu (upperS pc.1) &&
        decide (pc.1.length > (b : String × String).1.length)) = true
    · rw [if_pos hc]
      exact ih pc
    · rw [if_neg hc]
      exact ih b

/-- A nonempty matching pattern guarantees a best match. -/
theorem bestMatchFold_isSome {mu : String} {master : List (String × String)}
    (h : ∃ pc ∈ master, strContains mu (upperS pc.1) = true ∧ 0 < pc.1.length) :
    ∃ bc, bestMatchFold mu master = some bc := by
  unfold bestMatchFold
  suffices haux : ∀ (l : List (String × String)) (acc : Option (String × String)),
      (∃ pc ∈ l, strContains mu (upperS pc.1) = true ∧ 0 < pc.1.length) →
        ∃ bc, l.foldl
          (fun acc pc =>
            if strContains mu (upperS pc.1) &&
                decide (pc.1.length >
                  (match acc with
                    | some b => (b : String × String).1.length
                    | none => 0)) then
              some pc
            else acc) acc = some bc from haux master none h
  intro l
  induction l with
  | nil => intro acc h0; simp at h0
  | cons pc rest ih =>
    intro acc h0
    simp only [List.foldl_cons]
    rcases h0 with ⟨w, hw, hwm, hwl⟩
    rcases List.mem_cons.mp hw with rfl | hwrest
    · cases acc with
      | none =>
        rw [if_pos (by simp [hwm]; exact hwl)]
        exact bestMatchFold_preserve_some rest w
      | some b =>
        by_cases hc : (strContains mu (upperS w.1) &&
            decide (w.1.length > (b : String × String).1.length)) = true
        · rw [if_pos hc]
          exact bestMatchFold_preserve_some rest w
        · rw [if_neg hc]
          exact bestMatchFold_preserve_some rest b
    · exact ih _ ⟨w, hwrest, hwm, hwl⟩

/-- A nonempty string has positive length. -/
theorem strLengthPos {p : String} (h : p ≠ "") : 0 < p.length := by
  cases p with
  | mk data =>
    cases data with
    | nil => exact absurd rfl h
    | cons c cs => simp [String.length]

/-- C3, counterexample: for the merchant `AMZN MKTP US` with an empty
override table, both recategorizers return the hardcoded `MAINTENANCE`
(recording the new vendor `AMAZON`), not the built-in heuristic category
`SHOPPING` — the Amazon special case bypasses both halves of the claim. -/
theorem recategorize_transaction_amazon_counterexample :
    recategorize_transaction "AMZN MKTP US" "SHOPPING" [] [] false "" =
        ("MAINTENANCE", true, [("AMAZON", "MAINTENANCE")]) ∧
      ct_recategorize_transaction "AMZN MKTP US" "SHOPPING" [] [] =
        ("MAINTENANCE", true, [("AMAZON", "MAINTENANCE")]) ∧
      categorize_transaction "AMZN MKTP US" 10 = "SHOPPING" ∧
      ("MAINTENANCE" : String) ≠ "SHOPPING" := by
  exact ⟨by decide, by decide, by decide, by decide⟩

/-- C3 (amended): for merchants without `AMAZON`/`AMZN` in their uppercased
name, and non-interactively: when some nonempty override pattern is a
case-insensitive substring of the merchant, the final category is the
override category of such a matching pattern (the longest in
chase_analysis.py, the first in dict order in category_totals.py); when no
pattern matches, the incoming (heuristic) category is kept and the
merchant's extracted vendor key is recorded as a new vendor with it. -/
theorem recategorize_transaction_spec (merchant original_category : String)
    (master nv : List (String × String)) (userInput : String)
    (hA : strContains (upperS merchant) "AMAZON" = false)
    (hZ : strContains (upperS merchant) "AMZN" = false) :
    ((∃ p c, (p, c) ∈ master ∧ strContains (upperS merchant) (upperS p) = true ∧
        p ≠ "") →
      ∃ p c, (p, c) ∈ master ∧ strContains (upperS merchant) (upperS p) = true ∧
        (recategorize_transaction merchant original_category master nv false
          userInput).1 = c) ∧
      ((∀ p c, (p, c) ∈ master → strContains (upperS merchant) (upperS p) = false) →
        recategorize_transaction merchant original_category master nv false
            userInput =
          (original_category, true,
            setAdd nv (extract_vendor_key merchant, original_category))) ∧
      ((∃ p c, (p, c) ∈ master ∧ strContains (upperS merchant) (upperS p) = true) →
        ∃ p c, (p, c) ∈ master ∧ strContains (upperS merchant) (upperS p) = true ∧
          (ct_recategorize_transaction merchant original_category master nv).1 = c) ∧
      ((∀ p c, (p, c) ∈ master → strContains (upperS merchant) (upperS p) = false) →
        ct_recategorize_transaction merchant original_category master nv =
          (original_category, true,
            setAdd nv (ct_extract_vendor_key merchant, original_category))) := by
  have hAm : (strContains (upperS merchant) "AMAZON" ||
      strContains (upperS merchant) "AMZN") = false := by
    simp [hA, hZ]
  refine ⟨?_, ?_, ?_, ?_⟩
  · rintro ⟨p, c, hmem, hmatch, hne⟩
    obtain ⟨bc, hbc⟩ := bestMatchFold_isSome ⟨(p, c), hmem, hmatch, strLengthPos hne⟩
    obtain ⟨hbmem, hbmatch⟩ := bestMatchFold_some_mem hbc
    refine ⟨bc.1, bc.2, by simpa using hbmem, hbmatch, ?_⟩
    simp only [recategorize_transaction, hAm, Bool.false_eq_true, if_false, hbc]
  · intro hnone
    have hb := bestMatchFold_none_of_no_match
      (fun pc hpc => hnone pc.1 pc.2 (by simpa using hpc))
    simp only [recategorize_transaction, hAm, Bool.false_eq_true, if_false, hb]
    simp
  · rintro ⟨p, c, hmem, hmatch⟩
    cases hfind : master.find?
        (fun pc => strContains (upperS merchant) (upperS pc.1)) with
    | none =>
      rw [List.find?_eq_none] at hfind
      exact absurd hmatch (by simpa using hfind (p, c) hmem)
    | some x =>
      have hxm := List.mem_of_find?_eq_some hfind
      have hxp := List.find?_some hfind
      refine ⟨x.1, x.2, by simpa using hxm, hxp, ?_⟩
      simp only [ct_recategorize_transaction, hAm, Bool.false_eq_true, if_false,
        hfind]
  · intro hnone
    have hfind : master.find?
        (fun pc => strContains (upperS merchant) (upperS pc.1)) = none :=
      List.find?_eq_none.mpr
        (fun x hx => by simp [hnone x.1 x.2 (by simpa using hx)])
    simp only [ct_recategorize_transaction, hAm, Bool.false_eq_true, if_false,
      hfind]

/-- Witness for `recategorize_transaction_spec`: the pattern `STARBUCKS`
matches the merchant `STARBUCKS STORE` and its override category is
returned. -/
theorem recategorize_transaction_spec_witness :
    ∃ p c, (p, c) ∈ [("STARBUCKS", "DINING")] ∧
      strContains (upperS "STARBUCKS STORE") (upperS p) = true ∧
      (recategorize_transaction "STARBUCKS STORE" "OTHER"
        [("STARBUCKS", "DINING")] [] false "").1 = c :=
  (recategorize_transaction_spec "STARBUCKS STORE" "OTHER"
      [("STARBUCKS", "DINING")] [] "" (by decide) (by decide)).1
    ⟨"STARBUCKS", "DINING", by decide, by decide, by decide⟩

/-- Each first-pass step preserves the sign discipline of both collected
lists. -/
theorem processLine5136_inv (st : Loop5136State) (line : String)
    (h : loopInv5136 st) : loopInv5136 (processLine5136 st line) := by
  simp only [processLine5136]
  by_cases h1 : pyStrip line = ""
  · rw [if_pos h1]; exact h
  rw [if_neg h1]
  by_cases h2 : strContains (upperS (pyStrip line)) "FEES CHARGED" = true
  · rw [if_pos h2]; exact h
  rw [if_neg h2]
  by_cases h3 : (st.in_fees_section &&
      (strContains (upperS (pyStrip line)) "INTEREST CHARGES" ||
        strContains (upperS (pyStrip line)) "TOTAL FEES FOR THIS PERIOD")) = true
  · rw [if_pos h3]; exact h
  rw [if_neg h3]
  by_cases h4 : strContains (upperS (pyStrip line)) "PAYMENTS AND OTHER CREDITS" = true
  · rw [if_pos h4]; exact h
  rw [if_neg h4]
  by_cases h5 : (st.in_credits_section &&
      (strContains (upperS (pyStrip line)) "PURCHASE" ||
        strContains (upperS (pyStrip line)) "TOTAL CREDITS" ||
        strContains (upperS (pyStrip line)) "INTEREST CHARGES")) = true
  · rw [if_pos h5]; exact h
  rw [if_neg h5]
  by_cases h6 : ((skipPatterns5136.any fun skip => strContains (pyStrip line) skip) ||
      strContains (upperS (pyStrip line)) "TOTAL FEES") = true
  · rw [if_pos h6]; exact h
  rw [if_neg h6]
  cases hm : matchTransactionLine (pyStrip line).toList with
  | none => simp only [hm]; exact h
  | some x =>
    obtain ⟨dateCs, merchantCs, amountCs⟩ := x
    simp only [hm]
    by_cases h7 : (decide ((pyStrip (String.mk merchantCs)).toList.length < 3) ||
        decide (upperS (pyStrip (String.mk merchantCs)) ∈
          ["TOTAL", "SUBTOTAL", "BALANCE"])) = true
    · rw [if_pos h7]; exact h
    rw [if_neg h7]
    cases hp : parseFloat? (removeCommas amountCs) with
    | none => simp only [hp]; exact h
    | some amount =>
      simp only [hp]
      by_cases hic : st.in_credits_section = true
      · rw [if_pos hic]
        by_cases hneg : amount < 0
        · rw [if_pos hneg]
          by_cases hpay : (strContains (lowerS (pyStrip (String.mk merchantCs)))
              "payment" ||
              strContains (lowerS (pyStrip (String.mk merchantCs))) "thank you") = true
          · rw [if_pos hpay]; exact h
          · rw [if_neg hpay]
            refine ⟨h.1, ?_⟩
            intro t ht
            rcases List.mem_append.mp ht with hmem | hmem
            · exact h.2 t hmem
            · simp only [List.mem_singleton] at hmem
              subst hmem
              exact ⟨rfl, hneg⟩
        · rw [if_neg hneg]; exact h
      · rw [if_neg hic]
        by_cases hskip : (decide (amount < 0) ||
            strContains (lowerS (pyStrip (String.mk merchantCs))) "payment" ||
            strContains (lowerS (pyStrip (String.mk merchantCs))) "thank you") = true
        · rw [if_pos hskip]; exact h
        · rw [if_neg hskip]
          have hge : 0 ≤ amount := by
            simp only [Bool.or_eq_true, decide_eq_true_eq, not_or] at hskip
            exact not_lt.mp hskip.1.1
          refine ⟨?_, h.2⟩
          intro t ht
          rcases List.mem_append.mp ht with hmem | hmem
          · exact h.1 t hmem
          · simp only [List.mem_singleton] at hmem
            subst hmem
            constructor
            · intro _
              exact hge
            · intro hcr
              by_cases hf : st.in_fees_section = true
              · rw [if_pos hf] at hcr
                simp at hcr
              · rw [if_neg hf] at hcr
                simp at hcr

/-- The second pass only appends stored credits, so the sign discipline
carries over to the final list. -/
theorem includeCredits_inv :
    ∀ (credits allT : List Txn), (∀ t ∈ allT, signOK t) →
      (∀ t ∈ credits, t.type = "Credit" ∧ t.amount < 0) →
      ∀ t ∈ includeCredits allT credits, signOK t := by
  intro credits
  induction credits with
  | nil => intro allT hall _; simpa [includeCredits] using hall
  | cons c rest ih =>
    intro allT hall hcred
    have hc := hcred c (by simp)
    have hnext : ∀ t ∈ (if hasOffsettingPurchase allT c then allT else allT ++ [c]),
        signOK t := by
      split
      · exact hall
      · intro t ht
        rcases List.mem_append.mp ht with hmem | hmem
        · exact hall t hmem
        · simp only [List.mem_singleton] at hmem
          subst hmem
          constructor
          · intro hty
            rw [hc.1] at hty
            rcases hty with hty | hty <;> exact absurd hty (by decide)
          · intro _
            exact hc.2
    have hrest : ∀ t ∈ rest, t.type = "Credit" ∧ t.amount < 0 :=
      fun t ht => hcred t (by simp [ht])
    simpa [includeCredits, List.foldl_cons] using
      ih (if hasOffsettingPurchase allT c then allT else allT ++ [c]) hnext hrest

/-- C8: every record produced by `extract_5136_format_transactions`
satisfies the sign invariant — `Purchase` and `Fee` records carry
non-negative amounts, `Credit` records strictly negative ones. -/
theorem extract_5136_format_transactions_sign (lines : List String) :
    ∀ t ∈ extract_5136_format_transactions lines, signOK t := by
  have hloop : loopInv5136 (lines.foldl processLine5136
      { all_transactions := [], credits_to_include := [],
        in_fees_section := false, in_credits_section := false }) := by
    suffices haux : ∀ (l : List String) (st : Loop5136State),
        loopInv5136 st → loopInv5136 (l.foldl processLine5136 st) from
      haux lines _ ⟨by simp, by simp⟩
    intro l
    induction l with
    | nil => intro st h; exact h
    | cons x xs ih => intro st h; exact ih _ (processLine5136_inv st x h)
  intro t ht
  simp only [extract_5136_format_transactions] at ht
  exact includeCredits_inv _ _ hloop.1 hloop.2 t ht

/-- Witness for `extract_5136_format_transactions_sign`: the line
`01/02 STARBUCKS STORE 5.00` extracts a single 5-dollar purchase, which
satisfies the sign discipline. -/
theorem extract_5136_format_transactions_sign_witness :
    ({ date := "2025/01/02", cardholder := "SUMATHI RAJ",
       merchant := "STARBUCKS STORE", amount := partsToRat (false, 5, 0, 2),
       type := "Purchase", category := "RESTAURANT",
       original_category := none } : Txn) ∈
        extract_5136_format_transactions ["01/02 STARBUCKS STORE 5.00"] ∧
      signOK { date := "2025/01/02", cardholder := "SUMATHI RAJ",
               merchant := "STARBUCKS STORE",
               amount := partsToRat (false, 5, 0, 2), type := "Purchase",
               category := "RESTAURANT", original_category := none } := by
  have hamt : ¬(partsToRat (false, 5, 0, 2) < 0) := by
    norm_num [partsToRat]
  have hm : matchTransactionLine (pyStrip "01/02 STARBUCKS STORE 5.00").toList =
      some ("01/02".toList, "STARBUCKS STORE".toList, "5.00".toList) := by decide
  have hq : parseFloatParts? (removeCommas "5.00".toList) = some (false, 5, 0, 2) := by
    decide
  have hp : parseFloat? (removeCommas "5.00".toList) =
      some (partsToRat (false, 5, 0, 2)) := by
    unfold parseFloat?
    rw [hq]
    rfl
  have hext : extract_5136_format_transactions ["01/02 STARBUCKS STORE 5.00"] =
      [{ date := "2025/01/02", cardholder := "SUMATHI RAJ",
         merchant := "STARBUCKS STORE", amount := partsToRat (false, 5, 0, 2),
         type := "Purchase", category := "RESTAURANT",
         original_category := none }] := by
    simp only [extract_5136_format_transactions, List.foldl_cons, List.foldl_nil,
      processLine5136, hm, hp]
    rw [if_neg (by decide), if_neg (by decide), if_neg (by decide),
      if_neg (by decide), if_neg (by decide), if_neg (by decide),
      if_neg (by decide), if_neg (by decide),
      if_neg (by rw [decide_eq_false hamt]; decide)]
    rfl
  refine ⟨?_, ?_⟩
  · rw [hext]
    simp
  · exact extract_5136_format_transactions_sign _ _ (by rw [hext]; simp)

/-- Inserting an absent key appends. -/
theorem dictInsert_of_not_mem (d : List (String × String)) (k v : String)
    (h : k ∉ d.map Prod.fst) : dictInsert d k v = d ++ [(k, v)] := by
  induction d with
  | nil => rfl
  | cons e rest ih =>
    obtain ⟨k0, v0⟩ := e
    simp only [List.map_cons, List.mem_cons, not_or] at h
    have hne : ¬(k0 = k) := fun he => h.1 he.symm
    simp [dictInsert, hne, ih h.2]

/-- On rows with duplicate-free keys and whitespace-clean fields, the
dict-building read loop reproduces the rows. -/
theorem loadRows_strip_id (rows : List (String × String))
    (hclean : ∀ r ∈ rows, pyStrip r.1 = r.1 ∧ pyStrip r.2 = r.2)
    (hnd : (rows.map Prod.fst).Nodup) : loadRows rows = rows := by
  suffices haux : ∀ (l acc : List (String × String)),
      (∀ r ∈ l, pyStrip r.1 = r.1 ∧ pyStrip r.2 = r.2) →
      ((acc ++ l).map Prod.fst).Nodup →
      l.foldl (fun d r => dictInsert d (pyStrip r.1) (pyStrip r.2)) acc =
        acc ++ l by
    simpa [loadRows] using haux rows [] hclean (by simpa using hnd)
  intro l
  induction l with
  | nil => intro acc _ _; simp
  | cons r rest ih =>
    intro acc hclean2 hnd2
    obtain ⟨hc1, hc2⟩ := hclean2 r (by simp)
    simp only [List.foldl_cons, hc1, hc2]
    have hkey : r.1 ∉ acc.map Prod.fst := by
      simp only [List.map_append, List.map_cons] at hnd2
      intro hmem
      rcases List.mem_map.mp hmem with ⟨x, hx, hx1⟩
      have := (List.nodup_append.mp hnd2).2.2
      exact this (hx1 ▸ List.mem_map_of_mem Prod.fst hx) (by simp)
    rw [dictInsert_of_not_mem acc r.1 r.2 hkey]
    have heq : acc ++ r :: rest = (acc ++ [r]) ++ rest := by
      rw [List.append_cons]
    rw [heq]
    refine ih (acc ++ [(r.1, r.2)]) (fun x hx => hclean2 x (by simp [hx])) ?_
    rw [← heq]
    exact hnd2

/-- Association-list lookup is permutation-invariant when keys are
duplicate-free. -/
theorem lookup_eq_of_perm :
    ∀ {l₁ l₂ : List (String × String)}, l₁.Perm l₂ →
      (l₁.map Prod.fst).Nodup → ∀ k, l₁.lookup k = l₂.lookup k := by
  intro l₁ l₂ hp
  induction hp with
  | nil => intro _ _; rfl
  | cons x h ih =>
    intro hnd k
    obtain ⟨x1, x2⟩ := x
    rw [List.lookup_cons, List.lookup_cons]
    cases hbeq : k == x1 with
    | true => rfl
    | false => exact ih (by simpa using (List.nodup_cons.mp (by simpa using hnd)).2) k
  | swap x y l =>
    intro hnd k
    obtain ⟨x1, x2⟩ := x
    obtain ⟨y1, y2⟩ := y
    have hne : y1 ≠ x1 := by
      simp only [List.map_cons, List.nodup_cons, List.mem_cons] at hnd
      exact fun he => hnd.1 (Or.inl he)
    rw [List.lookup_cons, List.lookup_cons, List.lookup_cons, List.lookup_cons]
    cases hbx : k == x1 with
    | true =>
      cases hby : k == y1 with
      | true =>
        exact absurd ((beq_iff_eq.mp hby).symm.trans (beq_iff_eq.mp hbx)) hne
      | false => rfl
    | false =>
      cases hby : k == y1 with
      | true => rfl
      | false => rfl
  | trans h₁ h₂ ih₁ ih₂ =>
    intro hnd k
    rw [ih₁ hnd k]
    exact ih₂ (((h₁.map Prod.fst).nodup_iff).mp hnd) k

instance : IsTotal (String × String) (fun a b => a.1 ≤ b.1) :=
  ⟨fun a b => le_total a.1 b.1⟩

instance : IsTrans (String × String) (fun a b => a.1 ≤ b.1) :=
  ⟨fun _ _ _ hab hbc => le_trans hab hbc⟩

/-- C9: for a rule table with duplicate-free, whitespace-clean patterns
and categories, loading the rows written by `save_master_categories`
returns the same finite map (same lookup at every key), and the saved
rows list the vendor patterns in strictly ascending lexicographic
order. -/
theorem save_load_master_round_trip (m : List (String × String))
    (hnd : (m.map Prod.fst).Nodup)
    (hclean : ∀ r ∈ m, pyStrip r.1 = r.1 ∧ pyStrip r.2 = r.2) :
    (∀ k, (loadRows (save_master_categories m)).lookup k = m.lookup k) ∧
      List.Sorted (· < ·) ((save_master_categories m).map Prod.fst) := by
  have hperm : (save_master_categories m).Perm m := List.perm_insertionSort _ _
  have hnd2 : ((save_master_categories m).map Prod.fst).Nodup :=
    ((hperm.map Prod.fst).nodup_iff).mpr hnd
  have hclean2 : ∀ r ∈ save_master_categories m,
      pyStrip r.1 = r.1 ∧ pyStrip r.2 = r.2 :=
    fun r hr => hclean r (hperm.mem_iff.mp hr)
  constructor
  · intro k
    rw [loadRows_strip_id _ hclean2 hnd2]
    exact lookup_eq_of_perm hperm hnd2 k
  · have hs : List.Sorted (fun a b : String × String => a.1 ≤ b.1)
        (save_master_categories m) :=
      List.sorted_insertionSort _ _
    have hkeys : List.Pairwise (· ≤ ·)
        ((save_master_categories m).map Prod.fst) :=
      List.pairwise_map.mpr hs
    have hne : List.Pairwise (· ≠ ·)
        ((save_master_categories m).map Prod.fst) := hnd2
    exact (hkeys.and hne).imp (fun h => lt_of_le_of_ne h.1 h.2)

/-- Witness for `save_load_master_round_trip` on a two-rule table given in
reverse order. -/
theorem save_load_master_round_trip_witness :
    (∀ k, (loadRows (save_master_categories [("B", "2"), ("A", "1")])).lookup k =
        [("B", "2"), ("A", "1")].lookup k) ∧
      List.Sorted (· < ·)
        ((save_master_categories [("B", "2"), ("A", "1")]).map Prod.fst) :=
  save_load_master_round_trip [("B", "2"), ("A", "1")] (by decide)
    (by
      intro r hr
      rcases List.mem_cons.mp hr with rfl | hr2
      · exact ⟨by decide, by decide⟩
      rcases List.mem_singleton.mp hr2 with rfl
      exact ⟨by decide, by decide⟩)
